import Mathlib

/-!
# LLOG: a shallow embedding of `llog.hpp`

The header is embedded for the build family in which `LLOG_COLOR_WINDOWS` is
undefined (every non-Windows host, and Windows without colors): the `Color`
enumeration is the ANSI one and `SetColor` writes an escape sequence.

* Standard output is the string of characters inserted so far.  A healthy
  stream is assumed: the fail bits of `std::cout` are not modelled.
* The format flags of `std::cout` are in their default state, except in the
  part on the number base: there the overloads of `Print` are embedded again
  over a standard output that keeps its number base, which an argument such
  as `std::hex` changes. The two embeddings agree on values in base ten.
* The only mutable library state is the flag `firstArg`; `m_defaultColor` and
  the preset templates are never assigned by the library and are constants.
* The filesystem maps a path to the contents of the file there, with two
  permission predicates that say whether a path can be opened for output and
  for input.
* Overloaded functions get one definition per overload, the source lines are
  given in each doc comment.
-/

namespace llog

/-! ## Build configuration -/

/-- The two compile-time switches of the header. -/
structure Config where
  LLOG_ENABLED : Bool
  LLOG_COLORS_ENABLED : Bool
  deriving DecidableEq, Repr

/-! ## Data model -/

/-- The enumeration `Color` (llog.hpp:50-60), ANSI branch. -/
inductive Color where
  | BLACK
  | RED
  | GREEN
  | YELLOW
  | BLUE
  | MAGENTA
  | CYAN
  | HIGH_INTENSITY_WHITE
  | DEFAULT
  deriving DecidableEq, Repr

/-- The numeric value of an enumerator, `static_cast<int>(color)`:
`BLACK = 30` and every later enumerator is one more than the one before. -/
def Color.toInt : Color → Int
  | .BLACK => 30
  | .RED => 31
  | .GREEN => 32
  | .YELLOW => 33
  | .BLUE => 34
  | .MAGENTA => 35
  | .CYAN => 36
  | .HIGH_INTENSITY_WHITE => 37
  | .DEFAULT => 38

/-- The aggregate `PrintTemplate` (llog.hpp:62-68). -/
structure PrintTemplate where
  start : String
  delimiter : String
  «end» : String
  color : Color
  deriving DecidableEq, Repr

/-- The preset `m_printTemplate` (llog.hpp:72-77); `color` takes its default
member initializer. -/
def m_printTemplate : PrintTemplate :=
  ⟨"", " ", "\n", Color.HIGH_INTENSITY_WHITE⟩

/-- The preset `m_arrayTemplate` (llog.hpp:79-84). -/
def m_arrayTemplate : PrintTemplate :=
  ⟨"", "\n", "\n", Color.HIGH_INTENSITY_WHITE⟩

/-- The global `m_defaultColor` (llog.hpp:91). -/
def m_defaultColor : Color := Color.HIGH_INTENSITY_WHITE

/-- The preset `pt::error` (llog.hpp:214-220). -/
def pt.error : PrintTemplate := ⟨"Error: ", " ", "\n", Color.RED⟩

/-- The preset `pt::message` (llog.hpp:230-236). -/
def pt.message : PrintTemplate := ⟨"Message: ", " ", "\n", Color.GREEN⟩

/-- A value that satisfies the concept `Printable` (llog.hpp:41-42): a
string-like value, a character, an integer, or a value of any other type that
`std::cout` accepts, which is given by the characters its `operator<<`
inserts (floating point numbers, user types). -/
inductive Printable where
  | str (s : String)
  | chr (c : Char)
  | int (n : Int)
  | custom (inserted : String)
  deriving DecidableEq, Repr

/-- The characters `stream << x` inserts for a printable `x`. -/
def render : Printable → String
  | .str s => s
  | .chr c => String.singleton c
  | .int n => toString n
  | .custom t => t

/-- A value that satisfies the concept `Container` (llog.hpp:47-48), given by
its elements in iteration order; each element is streamed with `<<`. -/
abbrev Container := List Printable

/-! ## State -/

/-- Everything a call can observe or change. -/
structure World where
  /-- the characters written to standard output so far -/
  cout : String
  /-- the global `firstArg` (llog.hpp:102) -/
  firstArg : Bool
  /-- the contents of the file at each path, `none` where there is no file -/
  file : String → Option String
  /-- whether an output stream can be opened at the path -/
  writable : String → Bool
  /-- whether an existing file at the path can be opened for input -/
  readable : String → Bool

/-- A caller-held `std::ofstream`: whether it is open, and the characters it
has received. Insertion into a stream that is not open inserts nothing. -/
structure Ofstream where
  is_open : Bool
  received : String
  deriving DecidableEq, Repr

/-- A caller-held `std::ifstream`: whether it is open, and the characters
that remain to be read. -/
structure Ifstream where
  is_open : Bool
  remaining : String
  deriving DecidableEq, Repr

/-- Insertion `std::cout << s`. -/
def World.put (w : World) (s : String) : World :=
  ⟨w.cout ++ s, w.firstArg, w.file, w.writable, w.readable⟩

/-- Assignment `firstArg = b`. -/
def World.setFirstArg (w : World) (b : Bool) : World :=
  ⟨w.cout, b, w.file, w.writable, w.readable⟩

/-- Insertion `ofs << s`. -/
def Ofstream.put (ofs : Ofstream) (s : String) : Ofstream :=
  if ofs.is_open then ⟨true, ofs.received ++ s⟩ else ofs

/-! ## Operations -/

/-- The function `SetColor` (llog.hpp:92-101); the caller passes
`m_defaultColor` where the source leaves the argument out. -/
def SetColor (cfg : Config) (color : Color) (w : World) : World :=
  if cfg.LLOG_COLORS_ENABLED then
    w.put ("\x1b[" ++ toString color.toInt ++ "m")
  else
    w

/-- The overload `Print(const PrintTemplate&, const Container auto&)`
(llog.hpp:106-115). -/
def Print_container (cfg : Config) (pt : PrintTemplate) (arr : Container)
    (w : World) : World :=
  if cfg.LLOG_ENABLED then
    (arr.foldl (fun v x => (v.put (render x)).put " ") w).put pt.delimiter
  else
    w

/-- The overload
`Print(const PrintTemplate&, const Container auto&, const Container auto&...)`
(llog.hpp:117-142). The two inner calls are resolved as the compiler resolves
them: `Print(pt, arg)` and a one-element `Print(pt, args...)` go to the
non-variadic overload, which is the more specialised one. -/
def Print_containers (cfg : Config) (pt : PrintTemplate) :
    Container → List Container → World → World
  | _, [], w =>
    if cfg.LLOG_ENABLED then
      let w1 := SetColor cfg pt.color w
      let w2 := if w1.firstArg = false then (w1.setFirstArg true).put pt.start else w1
      SetColor cfg m_defaultColor w2
    else
      w
  | arg, a :: rest, w =>
    if cfg.LLOG_ENABLED then
      let w1 := SetColor cfg pt.color w
      let w2 := if w1.firstArg = false then (w1.setFirstArg true).put pt.start else w1
      let w3 := Print_container cfg pt arg w2
      let w4 :=
        match rest with
        | [] => Print_container cfg pt a w3
        | _ :: _ => Print_containers cfg pt a rest w3
      let w5 := if rest.length = 0 then (w4.put pt.end).setFirstArg false else w4
      SetColor cfg m_defaultColor w5
    else
      w

/-- A call `Print(pt, c1, ..., ck)` with container arguments, as overload
resolution sends it. With one container both container overloads are viable,
the variadic one with an empty pack, and partial ordering prefers the
function template without the trailing parameter pack, so the non-variadic
overload runs; with two or more only the variadic overload is viable. -/
def Print_container_call (cfg : Config) (pt : PrintTemplate) (arg : Container)
    (args : List Container) (w : World) : World :=
  match args with
  | [] => Print_container cfg pt arg w
  | _ :: _ => Print_containers cfg pt arg args w

/-- The overload `Print(const Container auto&, const Container auto&...)`
(llog.hpp:144-147). -/
def Print_container_default (cfg : Config) (arg : Container)
    (args : List Container) (w : World) : World :=
  Print_container_call cfg m_arrayTemplate arg args w

/-- The overload
`Print(const PrintTemplate&, Printable auto&&, Printable auto&&...)`
(llog.hpp:149-160). -/
def Print (cfg : Config) (pt : PrintTemplate) (arg : Printable)
    (args : List Printable) (w : World) : World :=
  if cfg.LLOG_ENABLED then
    let w1 := SetColor cfg pt.color w
    let w2 := (w1.put pt.start).put (render arg)
    let w3 := args.foldl (fun v x => (v.put pt.delimiter).put (render x)) w2
    let w4 := w3.put pt.end
    SetColor cfg m_defaultColor w4
  else
    w

/-- The overload `Print(Printable auto&&, Printable auto&&...)`
(llog.hpp:162-165). -/
def Print_default (cfg : Config) (arg : Printable) (args : List Printable)
    (w : World) : World :=
  Print cfg m_printTemplate arg args w

/-- The overload `PrintToFile(std::ofstream&, const PrintTemplate&, ...)`
(llog.hpp:167-174). -/
def PrintToFile (cfg : Config) (ofs : Ofstream) (pt : PrintTemplate)
    (arg : Printable) (args : List Printable) (w : World) : Ofstream × World :=
  if cfg.LLOG_ENABLED then
    let o1 := (ofs.put pt.start).put (render arg)
    let o2 := args.foldl (fun o x => (o.put pt.delimiter).put (render x)) o1
    (o2.put pt.end, w)
  else
    (ofs, w)

/-- The overload `PrintToFile(std::ofstream&, Printable auto&&, ...)`
(llog.hpp:176-179). -/
def PrintToFile_default (cfg : Config) (ofs : Ofstream) (arg : Printable)
    (args : List Printable) (w : World) : Ofstream × World :=
  PrintToFile cfg ofs m_printTemplate arg args w

/-- The constructor `std::ofstream ofs(path)`: where the path can be opened
the file is created or truncated and the stream is open on it. -/
def Ofstream.«open» (path : String) (w : World) : Ofstream × World :=
  if w.writable path then
    (⟨true, ""⟩,
      ⟨w.cout, w.firstArg, fun q => if q = path then some "" else w.file q,
        w.writable, w.readable⟩)
  else
    (⟨false, ""⟩, w)

/-- The destructor of a `std::ofstream` opened on `path`: the characters the
stream received are the contents of the file. -/
def Ofstream.close (path : String) (ofs : Ofstream) (w : World) : World :=
  if ofs.is_open then
    ⟨w.cout, w.firstArg, fun q => if q = path then some ofs.received else w.file q,
      w.writable, w.readable⟩
  else
    w

/-- The overload `PrintToFile(const std::filesystem::path&, ...)`
(llog.hpp:181-185). -/
def PrintToFile_path (cfg : Config) (path : String) (arg : Printable)
    (args : List Printable) (w : World) : World :=
  let (ofs, w1) := Ofstream.open path w
  let (ofs2, w2) := PrintToFile cfg ofs m_printTemplate arg args w1
  Ofstream.close path ofs2 w2

/-- The overload `PrintFromFile(std::ifstream&)` (llog.hpp:187-195):
`std::cout << ifs.rdbuf()` moves every remaining character to standard
output. (When nothing remains the insertion sets the fail bit of `std::cout`,
which is outside this model.) -/
def PrintFromFile (cfg : Config) (ifs : Ifstream) (w : World) : Ifstream × World :=
  if cfg.LLOG_ENABLED then
    if ifs.is_open then
      (⟨true, ""⟩, w.put ifs.remaining)
    else
      (ifs, w)
  else
    (ifs, w)

/-- The constructor `std::ifstream ifs(path)`: the stream is open when there
is a file at the path that can be read. -/
def Ifstream.«open» (path : String) (w : World) : Ifstream :=
  match w.file path with
  | some contents => if w.readable path then ⟨true, contents⟩ else ⟨false, ""⟩
  | none => ⟨false, ""⟩

/-- The overload `PrintFromFile(const std::filesystem::path&)`
(llog.hpp:197-201). -/
def PrintFromFile_path (cfg : Config) (path : String) (w : World) : World :=
  (PrintFromFile cfg (Ifstream.open path w) w).2

/-! ## Expected output, in closed form -/

/-- The characters `SetColor(color)` inserts: `ESC [ n m` with `n` the numeric
value of the color in decimal, nothing when colors are disabled. -/
def colorSeq (cfg : Config) (color : Color) : String :=
  if cfg.LLOG_COLORS_ENABLED then "\x1b[" ++ toString color.toInt ++ "m" else ""

/-- The elements of a container, each followed by one space. -/
def elements (arr : Container) : String :=
  String.join (arr.map fun x => render x ++ " ")

/-- The trailing arguments of a scalar call, each preceded by the delimiter. -/
def delimited (delimiter : String) (args : List Printable) : String :=
  String.join (args.map fun x => delimiter ++ render x)

/-- The framing of a scalar call without color:
`start ++ render a0 ++ (delimiter ++ render ai) ++ end`. -/
def framed (pt : PrintTemplate) (arg : Printable) (args : List Printable) : String :=
  pt.start ++ render arg ++ delimited pt.delimiter args ++ pt.end

/-- What the guard `if(firstArg == false)` of the variadic container overload
inserts: the start of the template when the flag is clear, nothing otherwise. -/
def startSeq (pt : PrintTemplate) (flag : Bool) : String :=
  if flag then "" else pt.start

/-- The characters the variadic container overload inserts for the containers
`arg, mid..., last` when it is entered with `firstArg = flag`: every level of
the recursion sets the color, the outermost level writes the start when the
flag is clear, every container is followed by the delimiter, the innermost
level writes the end, and every level restores the default color. -/
def containersSeq (cfg : Config) (pt : PrintTemplate) (flag : Bool) (arg : Container)
    (mid : List Container) (last : Container) : String :=
  colorSeq cfg pt.color ++ startSeq pt flag ++ elements arg ++ pt.delimiter
    ++ String.join (mid.map fun c => colorSeq cfg pt.color ++ elements c ++ pt.delimiter)
    ++ elements last ++ pt.delimiter ++ pt.end
    ++ String.join (List.replicate (mid.length + 1) (colorSeq cfg m_defaultColor))

/-! ## Calls and sample inputs -/

/-! ## Standard output with its number base

`std::cout` also carries format flags, and an argument may change them: the
manipulators `std::dec`, `std::oct` and `std::hex` are functions that
`std::cout << x` accepts, so the concept `CanBeCout` holds for them, and a
function is not an array, so `Printable` holds (llog.hpp:38-42). The
definitions below are the `Print` overloads again, over a standard output that
keeps the `basefield` of its flags; integers, the color code of `SetColor`
among them, are written in that base.
-/

/-- The `basefield` of the format flags of `std::cout`. -/
inductive Base where
  | dec
  | oct
  | hex
  deriving DecidableEq, Repr

/-- An argument or container element that `std::cout` accepts: a value, or
one of the manipulators `std::dec`, `std::oct`, `std::hex`. -/
inductive Arg where
  | value (p : Printable)
  | manip (b : Base)
  deriving DecidableEq, Repr

/-- The state, with the number base of standard output. -/
structure FWorld where
  world : World
  base : Base

/-- The characters `std::cout << x` inserts for a value when the stream is in
the given base: an `int` is written in that base, in base eight and sixteen as
the unsigned 32-bit number of the same bit pattern; every other value is
written as `render` gives it. -/
def renderIn (b : Base) : Printable → String
  | .int n =>
    match b with
    | .dec => toString n
    | .oct => String.mk (Nat.toDigits 8 (n % 4294967296).toNat)
    | .hex => String.mk (Nat.toDigits 16 (n % 4294967296).toNat)
  | p => render p

/-- Insertion `std::cout << s` of a string. -/
def FWorld.put (v : FWorld) (s : String) : FWorld :=
  ⟨v.world.put s, v.base⟩

/-- Assignment `firstArg = b`. -/
def FWorld.setFirstArg (v : FWorld) (b : Bool) : FWorld :=
  ⟨v.world.setFirstArg b, v.base⟩

/-- Insertion `std::cout << x` of an argument: a value is written in the
current base, a manipulator writes nothing and sets the base. -/
def FWorld.insert (v : FWorld) : Arg → FWorld
  | .value p => v.put (renderIn v.base p)
  | .manip b => ⟨v.world, b⟩

/-- The function `SetColor` (llog.hpp:92-101):
`std::cout << "\033[" << static_cast<int>(color) << "m"`. -/
def Formatted.SetColor (cfg : Config) (color : Color) (v : FWorld) : FWorld :=
  if cfg.LLOG_COLORS_ENABLED then
    (((v.put "\x1b[").insert (Arg.value (Printable.int color.toInt))).put "m")
  else
    v

/-- The overload `Print(const PrintTemplate&, const Container auto&)`
(llog.hpp:106-115). -/
def Formatted.Print_container (cfg : Config) (pt : PrintTemplate) (arr : List Arg)
    (v : FWorld) : FWorld :=
  if cfg.LLOG_ENABLED then
    (arr.foldl (fun u x => (u.insert x).put " ") v).put pt.delimiter
  else
    v

/-- The overload
`Print(const PrintTemplate&, const Container auto&, const Container auto&...)`
(llog.hpp:117-142), the inner calls resolved as in `Print_containers`. -/
def Formatted.Print_containers (cfg : Config) (pt : PrintTemplate) :
    List Arg → List (List Arg) → FWorld → FWorld
  | _, [], v =>
    if cfg.LLOG_ENABLED then
      let v1 := Formatted.SetColor cfg pt.color v
      let v2 := if v1.world.firstArg = false then (v1.setFirstArg true).put pt.start else v1
      Formatted.SetColor cfg m_defaultColor v2
    else
      v
  | arg, a :: rest, v =>
    if cfg.LLOG_ENABLED then
      let v1 := Formatted.SetColor cfg pt.color v
      let v2 := if v1.world.firstArg = false then (v1.setFirstArg true).put pt.start else v1
      let v3 := Formatted.Print_container cfg pt arg v2
      let v4 :=
        match rest with
        | [] => Formatted.Print_container cfg pt a v3
        | _ :: _ => Formatted.Print_containers cfg pt a rest v3
      let v5 := if rest.length = 0 then (v4.put pt.end).setFirstArg false else v4
      Formatted.SetColor cfg m_defaultColor v5
    else
      v

/-- A call `Print(pt, c1, ..., ck)` with container arguments, resolved as in
`Print_container_call`. -/
def Formatted.Print_container_call (cfg : Config) (pt : PrintTemplate) (arg : List Arg)
    (args : List (List Arg)) (v : FWorld) : FWorld :=
  match args with
  | [] => Formatted.Print_container cfg pt arg v
  | _ :: _ => Formatted.Print_containers cfg pt arg args v

/-- The overload
`Print(const PrintTemplate&, Printable auto&&, Printable auto&&...)`
(llog.hpp:149-160). -/
def Formatted.Print (cfg : Config) (pt : PrintTemplate) (arg : Arg) (args : List Arg)
    (v : FWorld) : FWorld :=
  if cfg.LLOG_ENABLED then
    let v1 := Formatted.SetColor cfg pt.color v
    let v2 := (v1.put pt.start).insert arg
    let v3 := args.foldl (fun u x => (u.put pt.delimiter).insert x) v2
    let v4 := v3.put pt.end
    Formatted.SetColor cfg m_defaultColor v4
  else
    v

/-- A call of `Print` as a program writes it: scalar arguments under a
template, or container arguments under a template. The calls without a
template are the calls under `m_printTemplate` and `m_arrayTemplate`
(llog.hpp:144-147, 162-165). -/
inductive Call where
  | scalars (pt : PrintTemplate) (arg : Arg) (args : List Arg)
  | containers (pt : PrintTemplate) (arg : List Arg) (args : List (List Arg))

/-- Running a call: the overload that the arguments select. -/
def Call.run (cfg : Config) : Call → FWorld → FWorld
  | .scalars pt arg args, v => Formatted.Print cfg pt arg args v
  | .containers pt arg args, v => Formatted.Print_container_call cfg pt arg args v

/-- Whether an argument is a value, which leaves the format flags alone. -/
def Arg.isValue : Arg → Bool
  | .value _ => true
  | .manip _ => false

/-- Whether no argument and no container element of the call is a
manipulator. -/
def Call.manipulatorFree : Call → Bool
  | .scalars _ arg args => arg.isValue && args.all Arg.isValue
  | .containers _ arg args => arg.all Arg.isValue && args.all fun c => c.all Arg.isValue

/-- The state with the given characters placed before the output so far. -/
def FWorld.prepend (s : String) (v : FWorld) : FWorld :=
  ⟨⟨s ++ v.world.cout, v.world.firstArg, v.world.file, v.world.writable, v.world.readable⟩,
    v.base⟩

/-- The state with the output so far and the flag erased: what is left is the
number base and the filesystem. -/
def FWorld.frame (v : FWorld) : FWorld :=
  ⟨⟨"", false, v.world.file, v.world.writable, v.world.readable⟩, v.base⟩

/-- The state at program start, standard output in base ten. -/
def FWorld.initial : FWorld :=
  ⟨⟨"", false, fun _ => none, fun _ => true, fun _ => true⟩, Base.dec⟩

/-- The state at program start: nothing written, `firstArg = false`, no
files, every path can be opened. -/
def World.initial : World :=
  ⟨"", false, fun _ => none, fun _ => true, fun _ => true⟩

/-- The initial state with one file, of the given contents, at the path. -/
def World.withFile (path contents : String) : World :=
  ⟨"", false, fun q => if q = path then some contents else none, fun _ => true, fun _ => true⟩

/-- A template whose start, delimiter and end are all visible characters. -/
def bracketTemplate : PrintTemplate := ⟨"[", ",", "]", Color.RED⟩

/-- A build with logging and colors enabled. -/
def Config.colored : Config := ⟨true, true⟩

/-- A build with logging enabled and colors disabled. -/
def Config.plain : Config := ⟨true, false⟩

/-- A build with logging disabled. -/
def Config.disabled (colors : Bool) : Config := ⟨false, colors⟩

/-! ## Auxiliary lemmas -/

theorem foldl_append_init (l : List String) (init : String) :
    l.foldl (fun acc s => acc ++ s) init = init ++ l.foldl (fun acc s => acc ++ s) "" := by
  induction l generalizing init with
  | nil => simp
  | cons s l ih =>
    simp only [List.foldl_cons, String.empty_append]
    rw [ih (init ++ s), ih s, String.append_assoc]

theorem join_nil : String.join [] = "" := rfl

theorem join_cons (s : String) (l : List String) :
    String.join (s :: l) = s ++ String.join l := by
  unfold String.join
  simp only [List.foldl_cons, String.empty_append]
  exact foldl_append_init l s

theorem join_append (l₁ l₂ : List String) :
    String.join (l₁ ++ l₂) = String.join l₁ ++ String.join l₂ := by
  induction l₁ with
  | nil => simp [join_nil]
  | cons s l ih => simp only [List.cons_append, join_cons, ih, String.append_assoc]

theorem join_replicate_succ (s : String) (n : Nat) :
    String.join (List.replicate (n + 1) s) = String.join (List.replicate n s) ++ s := by
  rw [List.replicate_succ', join_append, join_cons, join_nil, String.append_empty]

@[simp] theorem World.put_cout (w : World) (s : String) : (w.put s).cout = w.cout ++ s := rfl

@[simp] theorem World.put_firstArg (w : World) (s : String) :
    (w.put s).firstArg = w.firstArg := rfl

@[simp] theorem World.put_file (w : World) (s : String) : (w.put s).file = w.file := rfl

@[simp] theorem World.put_writable (w : World) (s : String) :
    (w.put s).writable = w.writable := rfl

@[simp] theorem World.put_readable (w : World) (s : String) :
    (w.put s).readable = w.readable := rfl

@[simp] theorem World.setFirstArg_cout (w : World) (b : Bool) :
    (w.setFirstArg b).cout = w.cout := rfl

@[simp] theorem World.setFirstArg_firstArg (w : World) (b : Bool) :
    (w.setFirstArg b).firstArg = b := rfl

@[simp] theorem World.setFirstArg_file (w : World) (b : Bool) :
    (w.setFirstArg b).file = w.file := rfl

theorem World.put_put (w : World) (a b : String) : (w.put a).put b = w.put (a ++ b) := by
  simp [World.put, String.append_assoc]

theorem World.put_empty (w : World) : w.put "" = w := by
  simp [World.put]

theorem World.setFirstArg_put (w : World) (b : Bool) (s : String) :
    (w.setFirstArg b).put s = (w.put s).setFirstArg b := rfl

theorem World.setFirstArg_setFirstArg (w : World) (b c : Bool) :
    (w.setFirstArg b).setFirstArg c = w.setFirstArg c := rfl

theorem World.setFirstArg_self (w : World) : w.setFirstArg w.firstArg = w := rfl

theorem SetColor_eq (cfg : Config) (color : Color) (w : World) :
    SetColor cfg color w = w.put (colorSeq cfg color) := by
  unfold SetColor colorSeq
  split
  · rfl
  · exact (World.put_empty w).symm

theorem foldl_elements (arr : Container) (w : World) :
    arr.foldl (fun v x => (v.put (render x)).put " ") w = w.put (elements arr) := by
  induction arr generalizing w with
  | nil => simp [elements, join_nil, World.put_empty]
  | cons x arr ih =>
    simp only [List.foldl_cons]
    rw [ih, World.put_put, World.put_put]
    simp [elements, join_cons, String.append_assoc]

theorem foldl_delimited (delimiter : String) (args : List Printable) (w : World) :
    args.foldl (fun v x => (v.put delimiter).put (render x)) w
      = w.put (delimited delimiter args) := by
  induction args generalizing w with
  | nil => simp [delimited, join_nil, World.put_empty]
  | cons x args ih =>
    simp only [List.foldl_cons]
    rw [ih, World.put_put, World.put_put]
    simp [delimited, join_cons, String.append_assoc]

theorem Print_container_eq (cfg : Config) (pt : PrintTemplate) (arr : Container)
    (w : World) (h : cfg.LLOG_ENABLED = true) :
    Print_container cfg pt arr w = w.put (elements arr ++ pt.delimiter) := by
  simp only [Print_container, h, if_true, foldl_elements]
  rw [World.put_put]

theorem Print_eq (cfg : Config) (pt : PrintTemplate) (arg : Printable)
    (args : List Printable) (w : World) (h : cfg.LLOG_ENABLED = true) :
    Print cfg pt arg args w
      = w.put (colorSeq cfg pt.color ++ framed pt arg args ++ colorSeq cfg m_defaultColor) := by
  simp only [Print, h, if_true, SetColor_eq, foldl_delimited]
  simp only [World.put_put, framed, String.append_assoc]

theorem World.setFirstArg_of_eq (w : World) (b : Bool) (h : w.firstArg = b) :
    w.setFirstArg b = w := by
  subst h
  rfl

theorem start_guard_eq (pt : PrintTemplate) (w : World) :
    (if w.firstArg = false then (w.setFirstArg true).put pt.start else w)
      = (w.put (startSeq pt w.firstArg)).setFirstArg true := by
  cases hf : w.firstArg with
  | false => simp [startSeq, World.setFirstArg_put]
  | true =>
    simp only [startSeq, if_true, World.put_empty]
    rw [World.setFirstArg_of_eq w true hf]
    simp

theorem Print_containers_one (cfg : Config) (pt : PrintTemplate) (arg a : Container)
    (w : World) (h : cfg.LLOG_ENABLED = true) :
    Print_containers cfg pt arg [a] w
      = (w.put (containersSeq cfg pt w.firstArg arg [] a)).setFirstArg false := by
  rw [Print_containers]
  simp only [h, if_true, List.length_nil]
  rw [SetColor_eq, SetColor_eq, start_guard_eq, Print_container_eq _ _ _ _ h,
    Print_container_eq _ _ _ _ h]
  simp only [World.setFirstArg_put, World.put_put, World.setFirstArg_setFirstArg,
    World.put_firstArg,
    containersSeq, List.map_nil, join_nil, List.length_nil, Nat.zero_add, List.replicate_one,
    join_cons, String.append_empty, String.append_assoc]

theorem Print_containers_more (cfg : Config) (pt : PrintTemplate) (arg a : Container)
    (rest : List Container) (w : World) (h : cfg.LLOG_ENABLED = true) (hr : rest ≠ []) :
    Print_containers cfg pt arg (a :: rest) w
      = (Print_containers cfg pt a rest
          (((w.put (colorSeq cfg pt.color ++ startSeq pt w.firstArg
            ++ elements arg ++ pt.delimiter)).setFirstArg true))).put
          (colorSeq cfg m_defaultColor) := by
  cases rest with
  | nil => exact absurd rfl hr
  | cons b rest =>
    rw [Print_containers]
    simp only [h, if_true, List.length_cons, Nat.add_one_ne_zero, if_false]
    rw [SetColor_eq, SetColor_eq, start_guard_eq, Print_container_eq _ _ _ _ h]
    simp only [World.setFirstArg_put, World.put_put, World.put_firstArg, String.append_assoc]

theorem Print_containers_eq (cfg : Config) (pt : PrintTemplate) (h : cfg.LLOG_ENABLED = true)
    (mid : List Container) (arg last : Container) (w : World) :
    Print_containers cfg pt arg (mid ++ [last]) w
      = (w.put (containersSeq cfg pt w.firstArg arg mid last)).setFirstArg false := by
  induction mid generalizing arg w with
  | nil => exact Print_containers_one cfg pt arg last w h
  | cons m mid ih =>
    rw [List.cons_append, Print_containers_more cfg pt arg m (mid ++ [last]) w h (by simp), ih]
    simp only [World.setFirstArg_put, World.put_put, World.setFirstArg_setFirstArg,
      World.setFirstArg_firstArg, World.put_firstArg,
      containersSeq, startSeq, if_true, List.map_cons, join_cons, List.length_cons,
      join_replicate_succ, String.empty_append, String.append_assoc]

theorem Print_container_call_one (cfg : Config) (pt : PrintTemplate) (arg : Container)
    (w : World) (h : cfg.LLOG_ENABLED = true) :
    Print_container_call cfg pt arg [] w = w.put (elements arg ++ pt.delimiter) := by
  simp only [Print_container_call, Print_container_eq cfg pt arg w h]

theorem Print_container_call_more (cfg : Config) (pt : PrintTemplate)
    (h : cfg.LLOG_ENABLED = true) (mid : List Container) (arg last : Container) (w : World) :
    Print_container_call cfg pt arg (mid ++ [last]) w
      = (w.put (containersSeq cfg pt w.firstArg arg mid last)).setFirstArg false := by
  rw [← Print_containers_eq cfg pt h mid arg last w]
  cases mid <;> rfl

theorem Ofstream.put_mk_true (t s : String) :
    (⟨true, t⟩ : Ofstream).put s = ⟨true, t ++ s⟩ := rfl

theorem Ofstream.foldl_put_delimited (delimiter : String) (args : List Printable) (t : String) :
    args.foldl (fun o x => (o.put delimiter).put (render x)) (⟨true, t⟩ : Ofstream)
      = ⟨true, t ++ delimited delimiter args⟩ := by
  induction args generalizing t with
  | nil => simp [delimited, join_nil]
  | cons x args ih =>
    simp only [List.foldl_cons, Ofstream.put_mk_true]
    rw [ih]
    simp [delimited, join_cons, String.append_assoc]

theorem PrintToFile_eq (cfg : Config) (ofs : Ofstream) (pt : PrintTemplate) (arg : Printable)
    (args : List Printable) (w : World) (h : cfg.LLOG_ENABLED = true)
    (ho : ofs.is_open = true) :
    PrintToFile cfg ofs pt arg args w = (⟨true, ofs.received ++ framed pt arg args⟩, w) := by
  cases ofs with
  | mk o r =>
    simp only at ho
    subst ho
    simp only [PrintToFile, h, if_true, Ofstream.put_mk_true, Ofstream.foldl_put_delimited, framed,
      String.append_assoc]

theorem Print_container_call_disabled (cfg : Config) (pt : PrintTemplate) (arg : Container)
    (args : List Container) (w : World) (h : cfg.LLOG_ENABLED = false) :
    Print_container_call cfg pt arg args w = w := by
  cases args with
  | nil => simp [Print_container_call, Print_container, h]
  | cons a rest => cases rest <;> simp [Print_container_call, Print_containers, h]

theorem exists_mid_last (a : Container) (rest : List Container) :
    ∃ mid last, a :: rest = mid ++ [last] := by
  rcases List.eq_nil_or_concat (a :: rest) with h | ⟨L, b, h⟩
  · exact absurd h (List.cons_ne_nil a rest)
  · exact ⟨L, b, by rw [h, List.concat_eq_append]⟩

theorem intercalate_go_eq (d : String) (l : List String) (acc : String) :
    String.intercalate.go acc d l = acc ++ String.join (l.map fun s => d ++ s) := by
  induction l generalizing acc with
  | nil => simp [String.intercalate.go, join_nil]
  | cons s l ih =>
    simp only [String.intercalate.go, ih, List.map_cons, join_cons, String.append_assoc]

theorem intercalate_cons (d s : String) (l : List String) :
    String.intercalate d (s :: l) = s ++ String.join (l.map fun t => d ++ t) := by
  simp only [String.intercalate, intercalate_go_eq]

theorem join_delimiter_shift (d : String) (f : Container → String) (mid : List Container)
    (last : Container) :
    String.join ((mid ++ [last]).map fun c => d ++ f c) ++ d
      = d ++ String.join (mid.map fun c => f c ++ d) ++ f last ++ d := by
  induction mid with
  | nil => simp [join_cons, join_nil, String.append_assoc]
  | cons m mid ih =>
    simp only [List.cons_append, List.map_cons, join_cons, String.append_assoc] at ih ⊢
    rw [ih]

theorem join_shift {α : Type} (d : String) (g : α → String) (l : List α) :
    String.join (l.map fun x => d ++ g x) ++ d = d ++ String.join (l.map fun x => g x ++ d) := by
  induction l with
  | nil => simp [join_nil]
  | cons x l ih =>
    simp only [List.map_cons, join_cons, String.append_assoc]
    rw [ih]

theorem elements_cons (x : Printable) (xs : List Printable) :
    elements (x :: xs) = String.intercalate " " ((x :: xs).map render) ++ " " := by
  rw [List.map_cons, intercalate_cons, List.map_map, String.append_assoc]
  have hs := join_shift " " render xs
  simp only [Function.comp_def] at hs ⊢
  rw [hs]
  simp only [elements, List.map_cons, join_cons, String.append_assoc]

theorem containersSeq_plain (cfg : Config) (pt : PrintTemplate) (flag : Bool) (arg : Container)
    (mid : List Container) (last : Container) (hc : cfg.LLOG_COLORS_ENABLED = false) :
    containersSeq cfg pt flag arg mid last
      = startSeq pt flag ++ elements arg ++ pt.delimiter
          ++ String.join (mid.map fun c => elements c ++ pt.delimiter)
          ++ elements last ++ pt.delimiter ++ pt.end := by
  have hrep : ∀ n : Nat, String.join (List.replicate n "") = "" := by
    intro n
    induction n with
    | zero => rfl
    | succ n ih => rw [join_replicate_succ, ih]; rfl
  simp [containersSeq, colorSeq, hc, hrep]

/-! ### Standard output with its number base -/

@[simp] theorem fmt_put_base (v : FWorld) (s : String) : (v.put s).base = v.base := rfl

@[simp] theorem fmt_put_firstArg (v : FWorld) (s : String) :
    (v.put s).world.firstArg = v.world.firstArg := rfl

@[simp] theorem fmt_put_cout (v : FWorld) (s : String) :
    (v.put s).world.cout = v.world.cout ++ s := rfl

@[simp] theorem fmt_setFirstArg_flag (v : FWorld) (b : Bool) :
    (v.setFirstArg b).world.firstArg = b := rfl

@[simp] theorem fmt_insert_firstArg (v : FWorld) (a : Arg) :
    (v.insert a).world.firstArg = v.world.firstArg := by
  cases a <;> rfl

@[simp] theorem fmt_prepend_firstArg (s : String) (v : FWorld) :
    (FWorld.prepend s v).world.firstArg = v.world.firstArg := rfl

@[simp] theorem fmt_prepend_put (s t : String) (v : FWorld) :
    (FWorld.prepend s v).put t = FWorld.prepend s (v.put t) := by
  simp [FWorld.prepend, FWorld.put, World.put, String.append_assoc]

@[simp] theorem fmt_prepend_setFirstArg (s : String) (b : Bool) (v : FWorld) :
    (FWorld.prepend s v).setFirstArg b = FWorld.prepend s (v.setFirstArg b) := rfl

@[simp] theorem fmt_prepend_insert (s : String) (a : Arg) (v : FWorld) :
    (FWorld.prepend s v).insert a = FWorld.prepend s (v.insert a) := by
  cases a with
  | value p => exact fmt_prepend_put s _ v
  | manip b => rfl

theorem fmt_prepend_foldl_elements (s : String) (arr : List Arg) (v : FWorld) :
    arr.foldl (fun u x => (u.insert x).put " ") (FWorld.prepend s v)
      = FWorld.prepend s (arr.foldl (fun u x => (u.insert x).put " ") v) := by
  induction arr generalizing v with
  | nil => rfl
  | cons x arr ih =>
    simp only [List.foldl_cons, fmt_prepend_insert, fmt_prepend_put]
    exact ih _

theorem fmt_prepend_foldl_delimited (s d : String) (args : List Arg) (v : FWorld) :
    args.foldl (fun u x => (u.put d).insert x) (FWorld.prepend s v)
      = FWorld.prepend s (args.foldl (fun u x => (u.put d).insert x) v) := by
  induction args generalizing v with
  | nil => rfl
  | cons x args ih =>
    simp only [List.foldl_cons, fmt_prepend_insert, fmt_prepend_put]
    exact ih _

theorem fmt_prepend_SetColor (cfg : Config) (c : Color) (s : String) (v : FWorld) :
    Formatted.SetColor cfg c (FWorld.prepend s v)
      = FWorld.prepend s (Formatted.SetColor cfg c v) := by
  unfold Formatted.SetColor
  split
  · simp only [fmt_prepend_insert, fmt_prepend_put]
  · rfl

theorem fmt_prepend_Print_container (cfg : Config) (pt : PrintTemplate) (arr : List Arg)
    (s : String) (v : FWorld) :
    Formatted.Print_container cfg pt arr (FWorld.prepend s v)
      = FWorld.prepend s (Formatted.Print_container cfg pt arr v) := by
  unfold Formatted.Print_container
  split
  · rw [fmt_prepend_foldl_elements, fmt_prepend_put]
  · rfl

/-- The guard `if(firstArg == false)` of the variadic container overload. -/
theorem fmt_prepend_guard (pt : PrintTemplate) (s : String) (v : FWorld) :
    (if (FWorld.prepend s v).world.firstArg = false
      then ((FWorld.prepend s v).setFirstArg true).put pt.start else FWorld.prepend s v)
      = FWorld.prepend s
          (if v.world.firstArg = false then (v.setFirstArg true).put pt.start else v) := by
  simp only [fmt_prepend_firstArg]
  split
  · simp only [fmt_prepend_setFirstArg, fmt_prepend_put]
  · rfl

theorem fmt_containers_one (cfg : Config) (pt : PrintTemplate) (arg a : List Arg)
    (v : FWorld) (h : cfg.LLOG_ENABLED = true) :
    Formatted.Print_containers cfg pt arg [a] v
      = Formatted.SetColor cfg m_defaultColor
          (((Formatted.Print_container cfg pt a
            (Formatted.Print_container cfg pt arg
              (if (Formatted.SetColor cfg pt.color v).world.firstArg = false
                then ((Formatted.SetColor cfg pt.color v).setFirstArg true).put pt.start
                else Formatted.SetColor cfg pt.color v))).put pt.end).setFirstArg false) := by
  rw [Formatted.Print_containers]
  simp only [h, if_true, List.length_nil]

theorem fmt_containers_more (cfg : Config) (pt : PrintTemplate) (arg a b : List Arg)
    (rest : List (List Arg)) (v : FWorld) (h : cfg.LLOG_ENABLED = true) :
    Formatted.Print_containers cfg pt arg (a :: b :: rest) v
      = Formatted.SetColor cfg m_defaultColor
          (Formatted.Print_containers cfg pt a (b :: rest)
            (Formatted.Print_container cfg pt arg
              (if (Formatted.SetColor cfg pt.color v).world.firstArg = false
                then ((Formatted.SetColor cfg pt.color v).setFirstArg true).put pt.start
                else Formatted.SetColor cfg pt.color v))) := by
  rw [Formatted.Print_containers]
  simp only [h, if_true, List.length_cons, Nat.add_one_ne_zero, if_false]

theorem fmt_containers_disabled (cfg : Config) (pt : PrintTemplate) (arg a : List Arg)
    (rest : List (List Arg)) (v : FWorld) (h : cfg.LLOG_ENABLED = false) :
    Formatted.Print_containers cfg pt arg (a :: rest) v = v := by
  rw [Formatted.Print_containers]
  simp [h]

theorem fmt_prepend_Print_containers (cfg : Config) (pt : PrintTemplate) (s : String)
    (rest : List (List Arg)) (arg a : List Arg) (v : FWorld) :
    Formatted.Print_containers cfg pt arg (a :: rest) (FWorld.prepend s v)
      = FWorld.prepend s (Formatted.Print_containers cfg pt arg (a :: rest) v) := by
  cases hE : cfg.LLOG_ENABLED with
  | false => rw [fmt_containers_disabled _ _ _ _ _ _ hE, fmt_containers_disabled _ _ _ _ _ _ hE]
  | true =>
    induction rest generalizing arg a v with
    | nil =>
      rw [fmt_containers_one _ _ _ _ _ hE, fmt_containers_one _ _ _ _ _ hE,
        fmt_prepend_SetColor, fmt_prepend_guard, fmt_prepend_Print_container,
        fmt_prepend_Print_container, fmt_prepend_put, fmt_prepend_setFirstArg,
        fmt_prepend_SetColor]
    | cons b rest ih =>
      rw [fmt_containers_more _ _ _ _ _ _ _ hE, fmt_containers_more _ _ _ _ _ _ _ hE,
        fmt_prepend_SetColor, fmt_prepend_guard, fmt_prepend_Print_container, ih,
        fmt_prepend_SetColor]

theorem fmt_prepend_Print (cfg : Config) (pt : PrintTemplate) (arg : Arg) (args : List Arg)
    (s : String) (v : FWorld) :
    Formatted.Print cfg pt arg args (FWorld.prepend s v)
      = FWorld.prepend s (Formatted.Print cfg pt arg args v) := by
  unfold Formatted.Print
  split
  · simp only [fmt_prepend_SetColor, fmt_prepend_put, fmt_prepend_insert,
      fmt_prepend_foldl_delimited]
  · rfl

/-- A call of `Print` sees the output so far only as something to append to. -/
theorem fmt_prepend_run (cfg : Config) (c : Call) (s : String) (v : FWorld) :
    c.run cfg (FWorld.prepend s v) = FWorld.prepend s (c.run cfg v) := by
  cases c with
  | scalars pt arg args => exact fmt_prepend_Print cfg pt arg args s v
  | containers pt arg args =>
    cases args with
    | nil => exact fmt_prepend_Print_container cfg pt arg s v
    | cons a rest => exact fmt_prepend_Print_containers cfg pt s rest arg a v

@[simp] theorem fmt_frame_put (v : FWorld) (s : String) : (v.put s).frame = v.frame := rfl

@[simp] theorem fmt_frame_setFirstArg (v : FWorld) (b : Bool) :
    (v.setFirstArg b).frame = v.frame := rfl

theorem fmt_frame_insert (v : FWorld) (a : Arg) (h : a.isValue = true) :
    (v.insert a).frame = v.frame := by
  cases a with
  | value p => rfl
  | manip b => simp [Arg.isValue] at h

theorem fmt_frame_foldl_elements (arr : List Arg) (h : arr.all Arg.isValue = true)
    (v : FWorld) :
    (arr.foldl (fun u x => (u.insert x).put " ") v).frame = v.frame := by
  induction arr generalizing v with
  | nil => rfl
  | cons x arr ih =>
    rw [List.all_cons, Bool.and_eq_true] at h
    rw [List.foldl_cons, ih h.2, fmt_frame_put, fmt_frame_insert v x h.1]

theorem fmt_frame_foldl_delimited (d : String) (args : List Arg)
    (h : args.all Arg.isValue = true) (v : FWorld) :
    (args.foldl (fun u x => (u.put d).insert x) v).frame = v.frame := by
  induction args generalizing v with
  | nil => rfl
  | cons x args ih =>
    rw [List.all_cons, Bool.and_eq_true] at h
    rw [List.foldl_cons, ih h.2, fmt_frame_insert _ x h.1, fmt_frame_put]

theorem fmt_frame_SetColor (cfg : Config) (c : Color) (v : FWorld) :
    (Formatted.SetColor cfg c v).frame = v.frame := by
  unfold Formatted.SetColor
  split <;> rfl

theorem fmt_frame_Print_container (cfg : Config) (pt : PrintTemplate) (arr : List Arg)
    (h : arr.all Arg.isValue = true) (v : FWorld) :
    (Formatted.Print_container cfg pt arr v).frame = v.frame := by
  unfold Formatted.Print_container
  split
  · rw [fmt_frame_put, fmt_frame_foldl_elements arr h]
  · rfl

theorem fmt_frame_guard (pt : PrintTemplate) (v : FWorld) :
    (if v.world.firstArg = false then (v.setFirstArg true).put pt.start else v).frame
      = v.frame := by
  split <;> rfl

theorem fmt_frame_Print_containers (cfg : Config) (pt : PrintTemplate)
    (rest : List (List Arg)) (arg a : List Arg) (v : FWorld)
    (harg : arg.all Arg.isValue = true)
    (hargs : (a :: rest).all (fun c => c.all Arg.isValue) = true) :
    (Formatted.Print_containers cfg pt arg (a :: rest) v).frame = v.frame := by
  cases hE : cfg.LLOG_ENABLED with
  | false => rw [fmt_containers_disabled _ _ _ _ _ _ hE]
  | true =>
    induction rest generalizing arg a v with
    | nil =>
      rw [List.all_cons, Bool.and_eq_true] at hargs
      rw [fmt_containers_one _ _ _ _ _ hE, fmt_frame_SetColor, fmt_frame_setFirstArg,
        fmt_frame_put, fmt_frame_Print_container _ _ _ hargs.1,
        fmt_frame_Print_container _ _ _ harg, fmt_frame_guard, fmt_frame_SetColor]
    | cons b rest ih =>
      rw [List.all_cons, Bool.and_eq_true] at hargs
      rw [fmt_containers_more _ _ _ _ _ _ _ hE, fmt_frame_SetColor, ih a b _ hargs.1 hargs.2,
        fmt_frame_Print_container _ _ _ harg, fmt_frame_guard, fmt_frame_SetColor]

theorem fmt_frame_Print (cfg : Config) (pt : PrintTemplate) (arg : Arg) (args : List Arg)
    (harg : arg.isValue = true) (hargs : args.all Arg.isValue = true) (v : FWorld) :
    (Formatted.Print cfg pt arg args v).frame = v.frame := by
  unfold Formatted.Print
  split
  · simp only []
    rw [fmt_frame_SetColor, fmt_frame_put, fmt_frame_foldl_delimited _ _ hargs,
      fmt_frame_insert _ _ harg, fmt_frame_put, fmt_frame_SetColor]
  · rfl

/-- A call without manipulators leaves the number base and the filesystem as
they were. -/
theorem fmt_frame_run (cfg : Config) (c : Call) (h : c.manipulatorFree = true) (v : FWorld) :
    (c.run cfg v).frame = v.frame := by
  cases c with
  | scalars pt arg args =>
    simp only [Call.manipulatorFree, Bool.and_eq_true] at h
    exact fmt_frame_Print cfg pt arg args h.1 h.2 v
  | containers pt arg args =>
    simp only [Call.manipulatorFree, Bool.and_eq_true] at h
    cases args with
    | nil => exact fmt_frame_Print_container cfg pt arg h.1 v
    | cons a rest => exact fmt_frame_Print_containers cfg pt rest arg a v h.1 h.2

theorem fmt_flag_foldl_elements (arr : List Arg) (v : FWorld) :
    (arr.foldl (fun u x => (u.insert x).put " ") v).world.firstArg = v.world.firstArg := by
  induction arr generalizing v with
  | nil => rfl
  | cons x arr ih => rw [List.foldl_cons, ih, fmt_put_firstArg, fmt_insert_firstArg]

theorem fmt_flag_foldl_delimited (d : String) (args : List Arg) (v : FWorld) :
    (args.foldl (fun u x => (u.put d).insert x) v).world.firstArg = v.world.firstArg := by
  induction args generalizing v with
  | nil => rfl
  | cons x args ih => rw [List.foldl_cons, ih, fmt_insert_firstArg, fmt_put_firstArg]

theorem fmt_flag_SetColor (cfg : Config) (c : Color) (v : FWorld) :
    (Formatted.SetColor cfg c v).world.firstArg = v.world.firstArg := by
  unfold Formatted.SetColor
  split <;> rfl

theorem fmt_flag_Print_container (cfg : Config) (pt : PrintTemplate) (arr : List Arg)
    (v : FWorld) :
    (Formatted.Print_container cfg pt arr v).world.firstArg = v.world.firstArg := by
  unfold Formatted.Print_container
  split
  · rw [fmt_put_firstArg, fmt_flag_foldl_elements]
  · rfl

theorem fmt_flag_Print (cfg : Config) (pt : PrintTemplate) (arg : Arg) (args : List Arg)
    (v : FWorld) :
    (Formatted.Print cfg pt arg args v).world.firstArg = v.world.firstArg := by
  unfold Formatted.Print
  split
  · simp only []
    rw [fmt_flag_SetColor, fmt_put_firstArg, fmt_flag_foldl_delimited, fmt_insert_firstArg,
      fmt_put_firstArg, fmt_flag_SetColor]
  · rfl

theorem fmt_flag_Print_containers (cfg : Config) (pt : PrintTemplate)
    (rest : List (List Arg)) (arg a : List Arg) (v : FWorld)
    (hE : cfg.LLOG_ENABLED = true) :
    (Formatted.Print_containers cfg pt arg (a :: rest) v).world.firstArg = false := by
  induction rest generalizing arg a v with
  | nil => rw [fmt_containers_one _ _ _ _ _ hE, fmt_flag_SetColor, fmt_setFirstArg_flag]
  | cons b rest ih => rw [fmt_containers_more _ _ _ _ _ _ _ hE, fmt_flag_SetColor, ih]

/-- A call entered with the flag clear returns with the flag clear. -/
theorem fmt_flag_run (cfg : Config) (c : Call) (v : FWorld) (hf : v.world.firstArg = false) :
    (c.run cfg v).world.firstArg = false := by
  cases c with
  | scalars pt arg args => exact (fmt_flag_Print cfg pt arg args v).trans hf
  | containers pt arg args =>
    cases args with
    | nil => exact (fmt_flag_Print_container cfg pt arg v).trans hf
    | cons a rest =>
      cases hE : cfg.LLOG_ENABLED with
      | false =>
        simp only [Call.run, Formatted.Print_container_call]
        rw [fmt_containers_disabled _ _ _ _ _ _ hE]
        exact hf
      | true => exact fmt_flag_Print_containers cfg pt rest arg a v hE

/-- A state is the state of the same frame with its own output placed in
front, when the flag is clear. -/
theorem fmt_eq_prepend (v u : FWorld) (hframe : u.frame = v.frame)
    (hf : u.world.firstArg = v.world.firstArg) (h0 : v.world.cout = "") :
    u = FWorld.prepend u.world.cout v := by
  cases u with
  | mk uw ub =>
    cases uw with
    | mk uc uf ufile uwr urd =>
      cases v with
      | mk vw vb =>
        cases vw with
        | mk vc vf vfile vwr vrd =>
          simp only [FWorld.frame, FWorld.mk.injEq, World.mk.injEq, true_and] at hframe
          simp only at hf h0
          obtain ⟨⟨h1, h2, h3⟩, h4⟩ := hframe
          subst h0 hf h1 h2 h3 h4
          simp [FWorld.prepend]

/-! ### Agreement of the two embeddings in base ten -/

theorem renderIn_dec (p : Printable) : renderIn Base.dec p = render p := by
  cases p <;> rfl

theorem fmt_put_mk (w : World) (b : Base) (s : String) :
    (⟨w, b⟩ : FWorld).put s = ⟨w.put s, b⟩ := rfl

theorem fmt_insert_value_dec (w : World) (p : Printable) :
    (⟨w, Base.dec⟩ : FWorld).insert (Arg.value p) = ⟨w.put (render p), Base.dec⟩ := by
  simp only [FWorld.insert, FWorld.put, renderIn_dec]

theorem fmt_agree_SetColor (cfg : Config) (c : Color) (w : World) :
    Formatted.SetColor cfg c ⟨w, Base.dec⟩ = ⟨SetColor cfg c w, Base.dec⟩ := by
  unfold Formatted.SetColor SetColor
  split
  · simp only [fmt_put_mk, fmt_insert_value_dec, render, World.put_put, String.append_assoc]
  · rfl

theorem fmt_agree_foldl_elements (arr : Container) (w : World) :
    (arr.map Arg.value).foldl (fun (u : FWorld) x => (u.insert x).put " ")
        (⟨w, Base.dec⟩ : FWorld)
      = ⟨arr.foldl (fun v x => (v.put (render x)).put " ") w, Base.dec⟩ := by
  induction arr generalizing w with
  | nil => rfl
  | cons x arr ih =>
    simp only [List.map_cons, List.foldl_cons, fmt_insert_value_dec, fmt_put_mk]
    exact ih _

theorem fmt_agree_foldl_delimited (d : String) (args : List Printable) (w : World) :
    (args.map Arg.value).foldl (fun (u : FWorld) x => (u.put d).insert x)
        (⟨w, Base.dec⟩ : FWorld)
      = ⟨args.foldl (fun v x => (v.put d).put (render x)) w, Base.dec⟩ := by
  induction args generalizing w with
  | nil => rfl
  | cons x args ih =>
    simp only [List.map_cons, List.foldl_cons, fmt_insert_value_dec, fmt_put_mk]
    exact ih _

theorem fmt_agree_Print_container (cfg : Config) (pt : PrintTemplate) (arr : Container)
    (w : World) :
    Formatted.Print_container cfg pt (arr.map Arg.value) ⟨w, Base.dec⟩
      = ⟨Print_container cfg pt arr w, Base.dec⟩ := by
  unfold Formatted.Print_container Print_container
  split
  · rw [fmt_agree_foldl_elements]
    rfl
  · rfl

theorem fmt_agree_guard (pt : PrintTemplate) (w : World) :
    (if (⟨w, Base.dec⟩ : FWorld).world.firstArg = false
      then ((⟨w, Base.dec⟩ : FWorld).setFirstArg true).put pt.start else ⟨w, Base.dec⟩)
      = ⟨if w.firstArg = false then (w.setFirstArg true).put pt.start else w, Base.dec⟩ := by
  cases hf : w.firstArg <;> simp [FWorld.put, FWorld.setFirstArg]

theorem fmt_agree_Print_containers (cfg : Config) (pt : PrintTemplate)
    (rest : List Container) (arg a : Container) (w : World) :
    Formatted.Print_containers cfg pt (arg.map Arg.value)
        ((a :: rest).map (List.map Arg.value)) ⟨w, Base.dec⟩
      = ⟨Print_containers cfg pt arg (a :: rest) w, Base.dec⟩ := by
  cases hE : cfg.LLOG_ENABLED with
  | false =>
    rw [List.map_cons, fmt_containers_disabled _ _ _ _ _ _ hE, Print_containers]
    simp [hE]
  | true =>
    induction rest generalizing arg a w with
    | nil =>
      rw [List.map_cons, List.map_nil, fmt_containers_one _ _ _ _ _ hE, Print_containers]
      simp only [hE, if_true, List.length_nil]
      rw [fmt_agree_SetColor, fmt_agree_guard, fmt_agree_Print_container,
        fmt_agree_Print_container]
      simp only [FWorld.put, FWorld.setFirstArg]
      rw [fmt_agree_SetColor]
    | cons b rest ih =>
      rw [List.map_cons, List.map_cons, fmt_containers_more _ _ _ _ _ _ _ hE, Print_containers]
      simp only [hE, if_true, List.length_cons, Nat.add_one_ne_zero, if_false]
      rw [fmt_agree_SetColor, fmt_agree_guard, fmt_agree_Print_container, ← List.map_cons,
        ih, fmt_agree_SetColor]

/-- On values, with standard output in base ten, the scalar overload over the
stream with a number base is the scalar overload `Print`. -/
theorem fmt_agree_Print (cfg : Config) (pt : PrintTemplate) (arg : Printable)
    (args : List Printable) (w : World) :
    Formatted.Print cfg pt (Arg.value arg) (args.map Arg.value) ⟨w, Base.dec⟩
      = ⟨Print cfg pt arg args w, Base.dec⟩ := by
  unfold Formatted.Print Print
  split
  · simp only [fmt_agree_SetColor, fmt_put_mk, fmt_insert_value_dec,
      fmt_agree_foldl_delimited]
  · rfl

/-- On values, with standard output in base ten, a container call over the
stream with a number base is the container call `Print_container_call`. -/
theorem fmt_agree_Print_container_call (cfg : Config) (pt : PrintTemplate) (arg : Container)
    (args : List Container) (w : World) :
    Formatted.Print_container_call cfg pt (arg.map Arg.value)
        (args.map (List.map Arg.value)) ⟨w, Base.dec⟩
      = ⟨Print_container_call cfg pt arg args w, Base.dec⟩ := by
  cases args with
  | nil => exact fmt_agree_Print_container cfg pt arg w
  | cons a rest => exact fmt_agree_Print_containers cfg pt rest arg a w

/-! ## Properties of the operations -/

/-- C9, the code at the member `DEFAULT`: `SetColor(Color::DEFAULT)` in a
colored build writes `ESC[38m`, because `DEFAULT` is the enumerator after
`HIGH_INTENSITY_WHITE = 37`; its value 38 is neither 0 nor in 30..37, and a
`Print` under a template of that color starts with `ESC[38m`. For every
member the sequence written is `ESC [ n m` with `n` its numeric value, and
the eight named colors have their values in 30..37. -/
theorem SetColor_DEFAULT_writes_38 :
    (SetColor Config.colored Color.DEFAULT World.initial).cout = "\x1b[38m"
    ∧ Color.DEFAULT.toInt = 38
    ∧ Color.DEFAULT.toInt ≠ 0
    ∧ ¬ (30 ≤ Color.DEFAULT.toInt ∧ Color.DEFAULT.toInt ≤ 37)
    ∧ (Print Config.colored ⟨"", " ", "\n", Color.DEFAULT⟩ (Printable.str "x") []
        World.initial).cout = "\x1b[38mx\n\x1b[37m"
    ∧ (∀ (c : Color) (w : World),
        (SetColor Config.colored c w).cout = w.cout ++ ("\x1b[" ++ toString c.toInt ++ "m"))
    ∧ (∀ c : Color, c ≠ Color.DEFAULT → 30 ≤ c.toInt ∧ c.toInt ≤ 37) := by
  refine ⟨by decide, rfl, by decide, by decide, by decide, fun c w => rfl, fun c hc => ?_⟩
  cases c <;> first | exact absurd rfl hc | decide

/-- C2, the code at the path overload of `PrintToFile` in a build with
logging disabled: the stream is constructed outside the `LLOG_ENABLED` guard,
so a file `/tmp/t` that holds `abc` is left empty, and a file that did not
exist is created. Every other entry point leaves the whole state, and the
stream it is given, as it was. -/
theorem PrintToFile_path_disabled_truncates :
    (∀ colors : Bool,
      (World.withFile "/tmp/t" "abc").file "/tmp/t" = some "abc"
      ∧ (PrintToFile_path (Config.disabled colors) "/tmp/t" (Printable.str "x") []
          (World.withFile "/tmp/t" "abc")).file "/tmp/t" = some ""
      ∧ World.initial.file "/tmp/t" = none
      ∧ (PrintToFile_path (Config.disabled colors) "/tmp/t" (Printable.str "x") []
          World.initial).file "/tmp/t" = some "")
    ∧ (∀ (colors : Bool) (pt : PrintTemplate) (w : World),
        (∀ (arg : Printable) (args : List Printable),
          Print (Config.disabled colors) pt arg args w = w)
        ∧ (∀ (arg : Container) (args : List Container),
          Print_container_call (Config.disabled colors) pt arg args w = w)
        ∧ (∀ (ofs : Ofstream) (arg : Printable) (args : List Printable),
          PrintToFile (Config.disabled colors) ofs pt arg args w = (ofs, w))
        ∧ (∀ ifs : Ifstream, PrintFromFile (Config.disabled colors) ifs w = (ifs, w))
        ∧ (∀ path : String, PrintFromFile_path (Config.disabled colors) path w = w)) := by
  refine ⟨fun colors => ⟨by decide, by cases colors <;> decide, rfl,
    by cases colors <;> decide⟩, fun colors pt w => ⟨fun arg args => rfl, fun arg args => ?_,
    fun ofs arg args => rfl, fun ifs => rfl, fun path => rfl⟩⟩
  cases args with
  | nil => rfl
  | cons a rest => cases rest <;> rfl

/-- C6: with logging enabled and the stream open, in the colored and in the
plain build alike, the stream overload of `PrintToFile` appends to the stream
the start, the first argument, every further argument preceded by the
delimiter, and the end; these are the characters `Print` writes to standard
output in the build without colors; no color sequence is added and the state,
standard output included, is unchanged. -/
theorem PrintToFile_stream_output (cfg : Config) (ofs : Ofstream) (pt : PrintTemplate)
    (arg : Printable) (args : List Printable) (w : World)
    (h : cfg.LLOG_ENABLED = true) (ho : ofs.is_open = true) :
    (PrintToFile cfg ofs pt arg args w).1.received
        = ofs.received ++ (pt.start ++ render arg
            ++ String.join (args.map fun a => pt.delimiter ++ render a) ++ pt.end)
    ∧ (Print Config.plain pt arg args w).cout
        = w.cout ++ (pt.start ++ render arg
            ++ String.join (args.map fun a => pt.delimiter ++ render a) ++ pt.end)
    ∧ (PrintToFile cfg ofs pt arg args w).1.is_open = true
    ∧ (PrintToFile cfg ofs pt arg args w).2 = w := by
  rw [PrintToFile_eq cfg ofs pt arg args w h ho, Print_eq Config.plain pt arg args w rfl]
  refine ⟨rfl, ?_, rfl, rfl⟩
  simp [colorSeq, Config.plain, framed, delimited]

/-- C6, at a concrete call: `PrintToFile(ofs, pt.error, "oops", 7)` in a
colored build, on an open and empty stream. -/
theorem PrintToFile_stream_output_witness :
    (PrintToFile Config.colored ⟨true, ""⟩ pt.error (Printable.str "oops")
        [Printable.int 7] World.initial).1.received = "Error: oops 7\n"
    ∧ (PrintToFile Config.colored ⟨true, ""⟩ pt.error (Printable.str "oops")
        [Printable.int 7] World.initial).2.cout = "" :=
  ⟨by
    rw [(PrintToFile_stream_output Config.colored ⟨true, ""⟩ pt.error (Printable.str "oops")
      [Printable.int 7] World.initial rfl rfl).1]
    decide,
   by
    rw [(PrintToFile_stream_output Config.colored ⟨true, ""⟩ pt.error (Printable.str "oops")
      [Printable.int 7] World.initial rfl rfl).2.2.2]
    rfl⟩

/-- C7: with logging enabled, for a path that can be opened for output and
for input, whatever the file held before, `PrintToFile(path, a0, ...)`
followed by `PrintFromFile(path)` appends to standard output the first
argument, every further argument preceded by one space, and a newline, with
no color sequence in either build. -/
theorem file_round_trip (cfg : Config) (path : String) (arg : Printable)
    (args : List Printable) (w : World) (h : cfg.LLOG_ENABLED = true)
    (hw : w.writable path = true) (hr : w.readable path = true) :
    (PrintFromFile_path cfg path (PrintToFile_path cfg path arg args w)).cout
      = w.cout ++ (render arg ++ String.join (args.map fun a => " " ++ render a) ++ "\n") := by
  simp only [PrintToFile_path, Ofstream.open, hw, if_true]
  rw [PrintToFile_eq cfg ⟨true, ""⟩ m_printTemplate arg args _ h rfl]
  simp only [Ofstream.close, if_true, PrintFromFile_path, Ifstream.open, hr, PrintFromFile, h,
    World.put_cout]
  simp [framed, delimited, m_printTemplate, String.append_assoc]

/-- C7, at a concrete round trip: `PrintToFile("/tmp/t", "hello", "world")`
then `PrintFromFile("/tmp/t")`, in a colored build, over a file that held
other text. -/
theorem file_round_trip_witness :
    (PrintFromFile_path Config.colored "/tmp/t"
      (PrintToFile_path Config.colored "/tmp/t" (Printable.str "hello")
        [Printable.str "world"] (World.withFile "/tmp/t" "abc"))).cout = "hello world\n" := by
  rw [file_round_trip Config.colored "/tmp/t" (Printable.str "hello") [Printable.str "world"]
    (World.withFile "/tmp/t" "abc") rfl rfl rfl]
  decide

/-- C5: with logging enabled and colors disabled, a container call writes
the containers in argument order, the outputs of adjacent containers
separated by the delimiter of the template, and each container as its
elements in iteration order with one space between adjacent elements and one
space after the last. Around them stand, for two or more containers, the
start (when the flag is clear) and the delimiter and the end, and for one
container the delimiter alone. `Print` of the container `[10, 20, 30]` under
the default container template writes `10 20 30 \n`. -/
theorem Print_containers_order (cfg : Config) (pt : PrintTemplate) (arg : Container)
    (w : World) (h : cfg.LLOG_ENABLED = true) (hc : cfg.LLOG_COLORS_ENABLED = false) :
    (Print_container_call cfg pt arg [] w).cout
        = w.cout ++ (String.intercalate pt.delimiter ([arg].map elements) ++ pt.delimiter)
    ∧ (∀ (a : Container) (rest : List Container),
        (Print_container_call cfg pt arg (a :: rest) w).cout
          = w.cout ++ ((if w.firstArg = true then "" else pt.start)
              ++ String.intercalate pt.delimiter ((arg :: a :: rest).map elements)
              ++ pt.delimiter ++ pt.end))
    ∧ (∀ (x : Printable) (xs : List Printable),
        elements (x :: xs) = String.intercalate " " ((x :: xs).map render) ++ " ")
    ∧ elements [] = ""
    ∧ (Print_container_default cfg [Printable.int 10, Printable.int 20, Printable.int 30] []
        w).cout = w.cout ++ "10 20 30 \n" := by
  refine ⟨?_, fun a rest => ?_, elements_cons, rfl, ?_⟩
  · rw [Print_container_call_one cfg pt arg w h]
    simp [intercalate_cons, join_nil]
  · obtain ⟨mid, last, hml⟩ := exists_mid_last a rest
    rw [hml, Print_container_call_more cfg pt h mid arg last w,
      containersSeq_plain cfg pt _ arg mid last hc, List.map_cons, intercalate_cons,
      List.map_map]
    have hs := join_delimiter_shift pt.delimiter elements mid last
    have hs' : ∀ t : String,
        String.join ((mid ++ [last]).map fun c => pt.delimiter ++ elements c)
            ++ (pt.delimiter ++ t)
          = pt.delimiter ++ (String.join (mid.map fun c => elements c ++ pt.delimiter)
              ++ (elements last ++ (pt.delimiter ++ t))) := by
      intro t
      rw [← String.append_assoc, hs]
      simp only [String.append_assoc]
    simp only [Function.comp_def, World.setFirstArg_cout, World.put_cout, startSeq,
      String.append_assoc]
    rw [hs']
  · simp only [Print_container_default]
    rw [Print_container_call_one cfg m_arrayTemplate _ w h]
    simp only [World.put_cout]
    congr 1

/-- C5, at concrete calls in the plain build: one container `[10, 20, 30]`
under the default container template, and the containers `[1, 2]`, `[3]`
under a template with visible framing. -/
theorem Print_containers_order_witness :
    (Print_container_default Config.plain
        [Printable.int 10, Printable.int 20, Printable.int 30] [] World.initial).cout
      = "10 20 30 \n"
    ∧ (Print_container_call Config.plain bracketTemplate [Printable.int 1, Printable.int 2]
        [[Printable.int 3]] World.initial).cout = "[1 2 ,3 ,]" :=
  ⟨by
    rw [(Print_containers_order Config.plain m_arrayTemplate [] World.initial rfl rfl).2.2.2.2]
    decide,
   by
    rw [(Print_containers_order Config.plain bracketTemplate
      [Printable.int 1, Printable.int 2] World.initial rfl rfl).2.1 [Printable.int 3] []]
    decide⟩

/-- C3, the code at a call with one container: `Print(pt::error, {1, 2, 3})`
with logging enabled and colors disabled selects the non-variadic overload
and writes `1 2 3  `, the elements and the delimiter; the start `Error: ` and
the end are not written, so the output is not the start, a body and the end.
The same holds under every template: one container gives the elements and
the delimiter alone. With two or more containers, entered with the flag
clear, the start is written once at the front and the end once at the back. -/
theorem Print_single_container_unframed :
    (Print_container_call Config.plain pt.error
        [Printable.int 1, Printable.int 2, Printable.int 3] [] World.initial).cout = "1 2 3  "
    ∧ (¬ ∃ body : String,
        (Print_container_call Config.plain pt.error
          [Printable.int 1, Printable.int 2, Printable.int 3] [] World.initial).cout
          = pt.error.start ++ body ++ pt.error.end)
    ∧ (∀ (tpl : PrintTemplate) (arg : Container) (w : World),
        (Print_container_call Config.plain tpl arg [] w).cout
          = w.cout ++ (elements arg ++ tpl.delimiter))
    ∧ (∀ (tpl : PrintTemplate) (arg : Container) (mid : List Container) (last : Container)
        (w : World), w.firstArg = false →
        (Print_container_call Config.plain tpl arg (mid ++ [last]) w).cout
          = w.cout ++ (tpl.start
              ++ (elements arg ++ tpl.delimiter
                ++ String.join (mid.map fun c => elements c ++ tpl.delimiter)
                ++ elements last ++ tpl.delimiter)
              ++ tpl.end)) := by
  refine ⟨by decide, ?_, fun tpl arg w => ?_, fun tpl arg mid last w hf => ?_⟩
  · rintro ⟨body, hb⟩
    have hl : (Print_container_call Config.plain pt.error
        [Printable.int 1, Printable.int 2, Printable.int 3] [] World.initial).cout
          = "1 2 3  " := by decide
    rw [hl] at hb
    have hd := congrArg (fun t : String => t.data.head?) hb
    have hr : (pt.error.start ++ body ++ pt.error.end).data.head? = some 'E' := by
      simp only [String.data_append]
      rfl
    simp only [hr] at hd
    exact absurd hd (by decide)
  · rw [Print_container_call_one Config.plain tpl arg w rfl]
    rfl
  · rw [Print_container_call_more Config.plain tpl rfl mid arg last w,
      containersSeq_plain Config.plain tpl _ arg mid last rfl, hf]
    simp only [World.setFirstArg_cout, World.put_cout, startSeq, String.append_assoc]
    rfl

/-- C8 fails as stated: `Print(std::hex, 255)` followed by `Print(255)`, from
the initial state in a build without colors, writes ` ff\nff\n`, while the
first call alone writes ` ff\n` and the second alone writes `255\n`. The first
call leaves standard output in base sixteen, and the output of the second
depends on that. -/
theorem Print_hex_then_Print_differs :
    (Call.run Config.plain (Call.scalars m_printTemplate (Arg.value (Printable.int 255)) [])
        (Call.run Config.plain
          (Call.scalars m_printTemplate (Arg.manip Base.hex) [Arg.value (Printable.int 255)])
          FWorld.initial)).world.cout = " ff\nff\n"
    ∧ (Call.run Config.plain
          (Call.scalars m_printTemplate (Arg.manip Base.hex) [Arg.value (Printable.int 255)])
          FWorld.initial).world.cout = " ff\n"
    ∧ (Call.run Config.plain
          (Call.scalars m_printTemplate (Arg.value (Printable.int 255)) [])
          FWorld.initial).world.cout = "255\n"
    ∧ (Call.run Config.plain (Call.scalars m_printTemplate (Arg.value (Printable.int 255)) [])
        (Call.run Config.plain
          (Call.scalars m_printTemplate (Arg.manip Base.hex) [Arg.value (Printable.int 255)])
          FWorld.initial)).world.cout
      ≠ (Call.run Config.plain
          (Call.scalars m_printTemplate (Arg.manip Base.hex) [Arg.value (Printable.int 255)])
          FWorld.initial).world.cout
        ++ (Call.run Config.plain
          (Call.scalars m_printTemplate (Arg.value (Printable.int 255)) [])
          FWorld.initial).world.cout := by
  refine ⟨by decide, by decide, by decide, by decide⟩

/-- C8 as amended: for every two calls of `Print`, scalar or container, under
any templates and with any number of arguments, of which the first has no
manipulator among its arguments and container elements, the characters
written by the first and then the second, from a state with nothing written
and the flag clear, are the characters the first writes from that state
followed by the characters the second writes from that state. The first call
returns with the flag clear and with standard output in the base it found. -/
theorem Print_sequential_values (cfg : Config) (A B : Call) (v : FWorld)
    (h0 : v.world.cout = "") (hf : v.world.firstArg = false)
    (hA : A.manipulatorFree = true) :
    (B.run cfg (A.run cfg v)).world.cout
        = (A.run cfg v).world.cout ++ (B.run cfg v).world.cout
    ∧ (A.run cfg v).world.firstArg = false
    ∧ (A.run cfg v).base = v.base := by
  have hframe := fmt_frame_run cfg A hA v
  have hflag := fmt_flag_run cfg A v hf
  have e := fmt_eq_prepend v (A.run cfg v) hframe (hflag.trans hf.symm) h0
  have hbase : (A.run cfg v).frame.base = v.frame.base := congrArg FWorld.base hframe
  refine ⟨?_, hflag, hbase⟩
  calc (B.run cfg (A.run cfg v)).world.cout
      = (B.run cfg (FWorld.prepend (A.run cfg v).world.cout v)).world.cout :=
        congrArg (fun x => (B.run cfg x).world.cout) e
    _ = (FWorld.prepend (A.run cfg v).world.cout (B.run cfg v)).world.cout := by
        rw [fmt_prepend_run]
    _ = (A.run cfg v).world.cout ++ (B.run cfg v).world.cout := rfl

/-- C8 as amended, at concrete calls in the colored build from the initial
state: a single container under the error template, then a scalar call that
switches to base sixteen. -/
theorem Print_sequential_values_witness :
    (Call.containers pt.error [Arg.value (Printable.int 1)] []).manipulatorFree = true
    ∧ (Call.run Config.colored
        (Call.scalars bracketTemplate (Arg.manip Base.hex) [Arg.value (Printable.int 255)])
        (Call.run Config.colored (Call.containers pt.error [Arg.value (Printable.int 1)] [])
          FWorld.initial)).world.cout
      = (Call.run Config.colored (Call.containers pt.error [Arg.value (Printable.int 1)] [])
          FWorld.initial).world.cout
        ++ (Call.run Config.colored
            (Call.scalars bracketTemplate (Arg.manip Base.hex)
              [Arg.value (Printable.int 255)]) FWorld.initial).world.cout :=
  ⟨rfl,
    (Print_sequential_values Config.colored
      (Call.containers pt.error [Arg.value (Printable.int 1)] [])
      (Call.scalars bracketTemplate (Arg.manip Base.hex) [Arg.value (Printable.int 255)])
      FWorld.initial rfl rfl rfl).1⟩

/-- C10 fails as stated: `Print(T, c)` with exactly one container, entered
with the flag clear, returns with the flag clear, not set. -/
theorem Print_single_container_flag_clear :
    World.initial.firstArg = false
    ∧ ¬ ((Print_container_call Config.colored m_arrayTemplate [Printable.int 1] []
          World.initial).firstArg = true) := by
  decide

/-- C10 as amended: a container call entered with the flag clear returns with
the flag clear, whatever the number of containers. With two or more
containers the variadic overload sets the flag and the level of the recursion
that has one remaining argument resets it; with exactly one container the
call selects the non-variadic overload, which never touches the flag, so the
flag is on return what it was on entry. -/
theorem Print_container_flag (cfg : Config) (pt : PrintTemplate) (arg : Container)
    (args : List Container) (w : World) (hf : w.firstArg = false) :
    (Print_container_call cfg pt arg args w).firstArg = false
    ∧ (∀ v : World, (Print_container_call cfg pt arg [] v).firstArg = v.firstArg)
    ∧ (∀ v : World, cfg.LLOG_ENABLED = true → args ≠ [] →
        (Print_container_call cfg pt arg args v).firstArg = false) := by
  have hone : ∀ v : World, (Print_container_call cfg pt arg [] v).firstArg = v.firstArg := by
    intro v
    cases hE : cfg.LLOG_ENABLED with
    | false => rw [Print_container_call_disabled cfg pt arg [] v hE]
    | true => rw [Print_container_call_one cfg pt arg v hE]; rfl
  have hmore : ∀ v : World, cfg.LLOG_ENABLED = true → args ≠ [] →
      (Print_container_call cfg pt arg args v).firstArg = false := by
    intro v hE hne
    cases args with
    | nil => exact absurd rfl hne
    | cons a rest =>
      obtain ⟨mid, last, hml⟩ := exists_mid_last a rest
      rw [hml, Print_container_call_more cfg pt hE mid arg last v]
      rfl
  refine ⟨?_, hone, hmore⟩
  cases hE : cfg.LLOG_ENABLED with
  | false => rw [Print_container_call_disabled cfg pt arg args w hE]; exact hf
  | true =>
    cases args with
    | nil => rw [hone w]; exact hf
    | cons a rest => exact hmore w hE (List.cons_ne_nil a rest)

/-- C10 as amended, at concrete calls in the colored build: three containers,
and one container. -/
theorem Print_container_flag_witness :
    (Print_container_call Config.colored bracketTemplate [Printable.int 1]
        [[Printable.int 2], [Printable.int 3]] World.initial).firstArg = false
    ∧ (Print_container_call Config.colored bracketTemplate [Printable.int 1] []
        World.initial).firstArg = false :=
  ⟨(Print_container_flag Config.colored bracketTemplate [Printable.int 1]
      [[Printable.int 2], [Printable.int 3]] World.initial rfl).1,
   (Print_container_flag Config.colored bracketTemplate [Printable.int 1] []
      World.initial rfl).1⟩

end llog
